import Mathlib

/-!
Verification of the DMC3 model decoder (`DMC3/model.py`).

The decoder walks a binary model file with a seekable cursor, building a
`Model` (header), its `Object` table, per-object `Mesh` headers and a
`Skeleton`.  We embed the byte source as a list of byte values together
with a cursor position, and each decoding step as a function returning
`Option` (`none` = decode failure).  Machine integers are `Int` with
explicit two's-complement conversion from the little-endian byte words;
IEEE-754 floats carry no arithmetic here, so a float value is represented
by its raw 32-bit little-endian bit pattern (a `Nat`).
-/

namespace DMC3

set_option maxRecDepth 16000

/-- A seekable cursor over a finite byte buffer: the bytes and the current
position. -/
structure BStream where
  data : List Nat
  pos : Nat
  deriving Repr, DecidableEq

/-- Modelled from the spec: the primitive reader of `common/io` (not under
`src/`) reads `n` bytes at the cursor and advances by `n`; reading past the
end of the buffer is a hard failure (`OutOfBounds`), never a zero-fill. -/
def readBytes (s : BStream) (n : Nat) : Option (List Nat × BStream) :=
  if s.pos + n ≤ s.data.length then
    some ((s.data.drop s.pos).take n, { s with pos := s.pos + n })
  else
    none

/-- Little-endian word value of a byte list (first byte least significant). -/
def leWord (bs : List Nat) : Nat :=
  bs.foldr (fun b acc => b + 256 * acc) 0

/-- Two's-complement reading of an `n`-byte little-endian word. -/
def toSigned (w : Nat) (n : Nat) : Int :=
  if w < 2 ^ (8 * n - 1) then (w : Int) else (w : Int) - 2 ^ (8 * n)

/-- Modelled from the spec: `common/io.ReadUByte` — one unsigned byte. -/
def ReadUByte (s : BStream) : Option (Int × BStream) :=
  (readBytes s 1).map fun p => ((leWord p.1 : Int), p.2)

/-- Modelled from the spec: `common/io.ReadByte` — one signed byte. -/
def ReadByte (s : BStream) : Option (Int × BStream) :=
  (readBytes s 1).map fun p => (toSigned (leWord p.1) 1, p.2)

/-- Modelled from the spec: `common/io.ReadSInt16` — little-endian signed
2-byte integer. -/
def ReadSInt16 (s : BStream) : Option (Int × BStream) :=
  (readBytes s 2).map fun p => (toSigned (leWord p.1) 2, p.2)

/-- Modelled from the spec: `common/io.ReadSInt32` — little-endian signed
4-byte integer. -/
def ReadSInt32 (s : BStream) : Option (Int × BStream) :=
  (readBytes s 4).map fun p => (toSigned (leWord p.1) 4, p.2)

/-- Modelled from the spec: `common/io.ReadSInt64` — little-endian signed
8-byte integer. -/
def ReadSInt64 (s : BStream) : Option (Int × BStream) :=
  (readBytes s 8).map fun p => (toSigned (leWord p.1) 8, p.2)

/-- Modelled from the spec: `common/io.ReadFloat` — a 4-byte IEEE-754
float, represented here by its raw little-endian 32-bit pattern. -/
def ReadFloat (s : BStream) : Option (Nat × BStream) :=
  (readBytes s 4).map fun p => (leWord p.1, p.2)

/-- Modelled from the spec: `common/io.ReadString` — a fixed-length
Latin-1 string of `n` bytes. -/
def ReadString (s : BStream) (n : Nat) : Option (String × BStream) :=
  (readBytes s n).map fun p => (String.mk (p.1.map Char.ofNat), p.2)

/-- Absolute seek (`f.seek(t)`): a negative target is an error; seeking
beyond the end is permitted (a later read there fails). -/
def seekAbs (s : BStream) (t : Int) : Option BStream :=
  if t < 0 then none else some { s with pos := t.toNat }

/-- Relative seek (`f.seek(d, 1)` / `os.SEEK_CUR`). -/
def seekRel (s : BStream) (d : Int) : Option BStream :=
  seekAbs s ((s.pos : Int) + d)

/-- A 3-component vector of float bit patterns (`mathutils.Vector`). -/
structure Vec3 where
  x : Nat
  y : Nat
  z : Nat
  deriving Repr, DecidableEq

/-- One skeletal joint (`class Bone`): local position, creation index, and
the parent field, `none` until the hierarchy remap assigns an integer
parent index over it. -/
structure Bone where
  position : Vec3
  idx : Nat
  parent : Option Int
  deriving Repr, DecidableEq

/-- Decoded skeleton state (`class Skeleton`) after `__init__`. -/
structure Skeleton where
  boneCount : Int
  hierarchyOffs : Int
  hierarchyOrderOffs : Int
  childIdxOffs : Int
  transformsOffs : Int
  bones : List Bone
  hierarchy : List Int
  hierarchyOrder : List Int
  childIndices : List Int
  parents : List Int
  deriving Repr, DecidableEq

/-- Decoded mesh-header state (`class Mesh`) after `__init__`.  Fields the
source assigns on only one branch (`boneIndiciesOffs`, `weightsOffs`,
`uknOffs`) are `Option`s, `none` when the attribute is never set.  The
`positions` placeholder list (`[Vector]*vertCount`) is a list of unset
entries; `vertGrp` is `[None]*boneCount`. -/
structure Mesh where
  meshIdx : Nat
  vertCount : Int
  texInd : Int
  positionsOffs : Int
  normalsOffs : Int
  UVsOffs : Int
  boneIndiciesOffs : Option Int
  weightsOffs : Option Int
  uknOffs : Option Int
  ukn : Int
  positions : List (Option Vec3)
  normals : List Vec3
  UVs : List Vec3
  boneIndicies : List (List Int)
  boneWeights : List (List Int)
  vertColour : List (List Int)
  triSkip : List (List Int)
  faces : List (List Nat)
  vertGrp : List (Option Nat)
  deriving Repr, DecidableEq

/-- Decoded object record (`class Object`); `meshes` is absent (`none`)
until `ParseMeshes` fills it. -/
structure Object where
  objectIdx : Nat
  meshCount : Int
  ukn : Int
  numVerts : Int
  mshOffs : Int
  flags : Int
  X : Nat
  Y : Nat
  Z : Nat
  radius : Nat
  meshes : Option (List Mesh)
  deriving Repr, DecidableEq

/-- Decoded model header (`class Model`) after `__init__`: the shell with
no objects and no skeleton yet. -/
structure Model where
  Id : String
  version : Nat
  padding : Int
  objectCount : Int
  boneCount : Int
  numTex : Int
  uknByte : Int
  ukn : Int
  ukn2 : Int
  skeletonOffs : Int
  objects : List Object
  skeleton : Option Skeleton
  deriving Repr, DecidableEq

/-- Python list indexing: a negative index counts from the end, an index
outside `[-n, n)` raises `IndexError`. -/
def pyIdx (n : Nat) (i : Int) : Option Nat :=
  if 0 ≤ i ∧ i < (n : Int) then some i.toNat
  else if -(n : Int) ≤ i ∧ i < 0 then some (i + n).toNat
  else none

/-- Replace the element at position `k` by its image under `f` (identity
when `k` is out of range). -/
def modifyAt (l : List α) (k : Nat) (f : α → α) : List α :=
  match l, k with
  | [], _ => []
  | a :: as, 0 => f a :: as
  | a :: as, k + 1 => a :: modifyAt as k f

/-- The hierarchy remap loop of `Skeleton.__init__`:
`for i in range(boneCount): self.bones[self.hierarchyOrder[i]].parent =
self.hierarchy[i]`, walking the zipped (order, parent) pairs.  An order
value outside Python list range is an `IndexError` (decode failure). -/
def remapParents (bones : List Bone) : List (Int × Int) → Option (List Bone)
  | [] => some bones
  | (o, p) :: rest =>
    match pyIdx bones.length o with
    | none => none
    | some k => remapParents (modifyAt bones k fun b => { b with parent := some p }) rest

/-- Read `n` consecutive signed bytes (the three `[ ReadByte(f) for _ in
range(boneCount) ]` table loops). -/
def readByteList (s : BStream) : Nat → Option (List Int × BStream)
  | 0 => some ([], s)
  | n + 1 => do
    let (b, s) ← ReadByte s
    let (rest, s1) ← readByteList s n
    return (b :: rest, s1)

/-- The bone-transform loop of `Skeleton.__init__`: per bone, three floats
(local position) then a 0x14-byte relative skip, constructing
`Bone(Vector([...]), i)` with `i` counting from `i0`. -/
def readBones (s : BStream) (i0 : Nat) : Nat → Option (List Bone × BStream)
  | 0 => some ([], s)
  | n + 1 => do
    let (x, s) ← ReadFloat s
    let (y, s) ← ReadFloat s
    let (z, s) ← ReadFloat s
    let s ← seekRel s 0x14
    let (rest, s1) ← readBones s (i0 + 1) n
    return ({ position := ⟨x, y, z⟩, idx := i0, parent := none } :: rest, s1)

/-- Embedding of `Skeleton.__init__(f, boneCount)`: record the base
position, read the four 4-byte table offsets, read the three `boneCount`
single-byte tables (each after an absolute seek to base + offset), read
the bone transforms, initialise `parents` to all `-1`, then run the
hierarchy remap over the bones. -/
def Skeleton.decode (s : BStream) (boneCount : Int) : Option (Skeleton × BStream) := do
  let base := (s.pos : Int)
  let (hierarchyOffs, s) ← ReadSInt32 s
  let (hierarchyOrderOffs, s) ← ReadSInt32 s
  let (childIdxOffs, s) ← ReadSInt32 s
  let (transformsOffs, s) ← ReadSInt32 s
  let s ← seekAbs s (base + hierarchyOffs)
  let (hierarchy, s) ← readByteList s boneCount.toNat
  let s ← seekAbs s (base + hierarchyOrderOffs)
  let (hierarchyOrder, s) ← readByteList s boneCount.toNat
  let s ← seekAbs s (base + childIdxOffs)
  let (childIndices, s) ← readByteList s boneCount.toNat
  let s ← seekAbs s (base + transformsOffs)
  let (bones0, s) ← readBones s 0 boneCount.toNat
  let parents := List.replicate boneCount.toNat (-1 : Int)
  let bones ← remapParents bones0 (hierarchyOrder.zip hierarchy)
  return ({ boneCount, hierarchyOffs, hierarchyOrderOffs, childIdxOffs, transformsOffs,
            bones, hierarchy, hierarchyOrder, childIndices, parents }, s)

/-- Embedding of `Mesh.__init__(f, meshIdx)`.  The layout branch reads the
module-global current model (`model.Id`, `model.boneCount`), which the
embedding passes explicitly as `model`: common prefix (vertex count,
texture index, 12-byte skip, three 8-byte offsets), then for a non-`"SCM "`
tag two further 8-byte offsets and an 8-byte skip, otherwise a 16-byte
skip and one 8-byte offset; both variants end with one 8-byte scalar and
an 8-byte trailing skip.  Buffers are initialised as in the source:
`positions = [Vector]*vertCount` (a placeholder list, entries unset), the
other buffer lists empty, `vertGrp = [None]*model.boneCount`. -/
def Mesh.decode (model : Model) (s : BStream) (meshIdx : Nat) : Option (Mesh × BStream) := do
  let (vertCount, s) ← ReadSInt16 s
  let (texInd, s) ← ReadSInt16 s
  let s ← seekRel s 12
  let (positionsOffs, s) ← ReadSInt64 s
  let (normalsOffs, s) ← ReadSInt64 s
  let (UVsOffs, s) ← ReadSInt64 s
  let (boneIndiciesOffs, weightsOffs, uknOffs, s) ←
    if model.Id ≠ "SCM " then do
      let (bi, s) ← ReadSInt64 s
      let (w, s) ← ReadSInt64 s
      let s ← seekRel s 8
      pure (some bi, some w, (none : Option Int), s)
    else do
      let s ← seekRel s 16
      let (u, s) ← ReadSInt64 s
      pure ((none : Option Int), (none : Option Int), some u, s)
  let (ukn, s) ← ReadSInt64 s
  let s ← seekRel s 8
  return ({ meshIdx, vertCount, texInd, positionsOffs, normalsOffs, UVsOffs,
            boneIndiciesOffs, weightsOffs, uknOffs, ukn,
            positions := List.replicate vertCount.toNat none,
            normals := [], UVs := [], boneIndicies := [], boneWeights := [],
            vertColour := [], triSkip := [], faces := [],
            vertGrp := List.replicate model.boneCount.toNat none }, s)

/-- The mesh list comprehension of `Object.ParseMeshes`:
`[Mesh(f, i) for i in range(self.meshCount)]`, reading `n` mesh headers
back to back with `meshIdx` counting from `i0`. -/
def decodeMeshes (model : Model) (s : BStream) (i0 : Nat) : Nat → Option (List Mesh × BStream)
  | 0 => some ([], s)
  | n + 1 => do
    let (m, s) ← Mesh.decode model s i0
    let (rest, s1) ← decodeMeshes model s (i0 + 1) n
    return (m :: rest, s1)

/-- Embedding of `Object.ParseMeshes`: one absolute seek to the object's
mesh-table offset, then the sequential mesh-header reads. -/
def Object.ParseMeshes (model : Model) (o : Object) (s : BStream) : Option (Object × BStream) := do
  let s ← seekAbs s o.mshOffs
  let (ms, s) ← decodeMeshes model s 0 o.meshCount.toNat
  return ({ o with meshes := some ms }, s)

/-- Embedding of `Object.__init__(f, objectIdx)`: mesh count (signed
byte), one unknown byte, vertex count (2-byte int), a discarded 4-byte
int, the 8-byte mesh-table offset, 4-byte flags, a 28-byte skip, then
four floats. -/
def Object.decode (s : BStream) (objectIdx : Nat) : Option (Object × BStream) := do
  let (meshCount, s) ← ReadByte s
  let (ukn, s) ← ReadByte s
  let (numVerts, s) ← ReadSInt16 s
  let (_, s) ← ReadSInt32 s
  let (mshOffs, s) ← ReadSInt64 s
  let (flags, s) ← ReadSInt32 s
  let s ← seekRel s 28
  let (X, s) ← ReadFloat s
  let (Y, s) ← ReadFloat s
  let (Z, s) ← ReadFloat s
  let (radius, s) ← ReadFloat s
  return ({ objectIdx, meshCount, ukn, numVerts, mshOffs, flags, X, Y, Z, radius,
            meshes := none }, s)

/-- The object loop of `Model.ParseObjects`: `n` object records read back
to back, `objectIdx` counting from `i0`. -/
def decodeObjects (s : BStream) (i0 : Nat) : Nat → Option (List Object × BStream)
  | 0 => some ([], s)
  | n + 1 => do
    let (o, s) ← Object.decode s i0
    let (rest, s1) ← decodeObjects s (i0 + 1) n
    return (o :: rest, s1)

/-- Embedding of `Model.ParseObjects`: one absolute seek to the fixed
object-table base 0x40, then `objectCount` sequential object records
appended in table order. -/
def Model.ParseObjects (m : Model) (s : BStream) : Option (Model × BStream) := do
  let s ← seekAbs s 0x40
  let (objs, s) ← decodeObjects s 0 m.objectCount.toNat
  return ({ m with objects := objs }, s)

/-- Embedding of `Model.__init__(f)`: the header reads in source order —
4-byte tag string, float version, 8-byte padding, unsigned-byte object
count, signed-byte bone count, texture count, one unknown byte, a 4-byte
and an 8-byte unknown, and the 8-byte skeleton offset — with no
validation of the tag. -/
def Model.decode (s : BStream) : Option (Model × BStream) := do
  let (Id, s) ← ReadString s 4
  let (version, s) ← ReadFloat s
  let (padding, s) ← ReadSInt64 s
  let (objectCount, s) ← ReadUByte s
  let (boneCount, s) ← ReadByte s
  let (numTex, s) ← ReadByte s
  let (uknByte, s) ← ReadByte s
  let (ukn, s) ← ReadSInt32 s
  let (ukn2, s) ← ReadSInt64 s
  let (skeletonOffs, s) ← ReadSInt64 s
  return ({ Id, version, padding, objectCount, boneCount, numTex, uknByte, ukn, ukn2,
            skeletonOffs, objects := [], skeleton := none }, s)

/-!
Triangle-strip unrolling.  The face-topology reconstruction lives in
`common/meshutils.ParseVerts`, which is not under `src/`; the model below
follows the spec's description of the index/skip stream.
-/

/-- Modelled from the spec: one element of the index/skip stream of a
mesh — either a strip-restart skip marker or a vertex index. -/
inductive StripElem where
  | skip : StripElem
  | idx : Nat → StripElem
  deriving Repr, DecidableEq

/-- Modelled from the spec: the strip-unrolling state — the 2-entry
sliding window of the last two non-skipped indices (most recent last) and
the winding-order flag that alternates at every emitted face. -/
structure StripState where
  window : List Nat
  flip : Bool
  deriving Repr, DecidableEq

/-- Modelled from the spec: one step of triangle-strip unrolling.  A skip
marker resets the window (and the winding) without emitting a face; an
index with a full window emits exactly one triangle (winding alternating)
and slides into the window; an index with a partial window only fills the
window. -/
def stripStep (st : StripState) (e : StripElem) : StripState × List (Nat × Nat × Nat) :=
  match e with
  | .skip => (⟨[], false⟩, [])
  | .idx v =>
    match st.window with
    | [u, w] =>
      (⟨[w, v], !st.flip⟩, [if st.flip then (w, u, v) else (u, w, v)])
    | ws => (⟨ws ++ [v], st.flip⟩, [])

/-- Modelled from the spec: unroll a whole index/skip stream into the
emitted triangle list, starting from an empty window. -/
def unrollStrip (es : List StripElem) : List (Nat × Nat × Nat) :=
  (es.foldl (fun acc e =>
    let r := stripStep acc.1 e
    (r.1, acc.2 ++ r.2)) ((⟨[], false⟩ : StripState), [])).2

/-!
Inversion lemmas for the primitive reader: a successful read preserves
the buffer and advances the cursor by exactly the width read; a read is
successful whenever it stays inside the buffer.
-/

theorem readBytes_inv {s : BStream} {n : Nat} {bs : List Nat} {t : BStream}
    (h : readBytes s n = some (bs, t)) : t.data = s.data ∧ t.pos = s.pos + n := by
  unfold readBytes at h
  split at h
  · simp only [Option.some.injEq, Prod.mk.injEq] at h
    obtain ⟨-, h2⟩ := h
    exact ⟨by rw [← h2], by rw [← h2]⟩
  · exact absurd h (by simp)

theorem readBytes_eq {s : BStream} {n : Nat} (h : s.pos + n ≤ s.data.length) :
    readBytes s n = some ((s.data.drop s.pos).take n, ⟨s.data, s.pos + n⟩) := by
  unfold readBytes
  rw [if_pos h]

theorem mapRead_inv {α : Type} {f : List Nat × BStream → α × BStream} {s : BStream} {n : Nat}
    {v : α} {t : BStream}
    (h : (readBytes s n).map f = some (v, t)) (hf : ∀ p, (f p).2 = p.2) :
    t.data = s.data ∧ t.pos = s.pos + n := by
  obtain ⟨⟨bs, t0⟩, h1, h2⟩ := Option.map_eq_some'.mp h
  have ht : t = t0 := by
    have ht0 := hf (bs, t0)
    rw [h2] at ht0
    simpa using ht0
  subst ht
  exact readBytes_inv h1

theorem ReadByte_inv {s : BStream} {v : Int} {t : BStream}
    (h : ReadByte s = some (v, t)) : t.data = s.data ∧ t.pos = s.pos + 1 := by
  unfold ReadByte at h; exact mapRead_inv h (fun p => rfl)

theorem ReadUByte_inv {s : BStream} {v : Int} {t : BStream}
    (h : ReadUByte s = some (v, t)) : t.data = s.data ∧ t.pos = s.pos + 1 := by
  unfold ReadUByte at h; exact mapRead_inv h (fun p => rfl)

theorem ReadSInt16_inv {s : BStream} {v : Int} {t : BStream}
    (h : ReadSInt16 s = some (v, t)) : t.data = s.data ∧ t.pos = s.pos + 2 := by
  unfold ReadSInt16 at h; exact mapRead_inv h (fun p => rfl)

theorem ReadSInt32_inv {s : BStream} {v : Int} {t : BStream}
    (h : ReadSInt32 s = some (v, t)) : t.data = s.data ∧ t.pos = s.pos + 4 := by
  unfold ReadSInt32 at h; exact mapRead_inv h (fun p => rfl)

theorem ReadSInt64_inv {s : BStream} {v : Int} {t : BStream}
    (h : ReadSInt64 s = some (v, t)) : t.data = s.data ∧ t.pos = s.pos + 8 := by
  unfold ReadSInt64 at h; exact mapRead_inv h (fun p => rfl)

theorem ReadFloat_inv {s : BStream} {v : Nat} {t : BStream}
    (h : ReadFloat s = some (v, t)) : t.data = s.data ∧ t.pos = s.pos + 4 := by
  unfold ReadFloat at h; exact mapRead_inv h (fun p => rfl)

theorem ReadString_inv {s : BStream} {n : Nat} {v : String} {t : BStream}
    (h : ReadString s n = some (v, t)) : t.data = s.data ∧ t.pos = s.pos + n := by
  unfold ReadString at h; exact mapRead_inv h (fun p => rfl)

theorem seekRel_inv {s : BStream} {d : Int} {t : BStream}
    (h : seekRel s d = some t) (hd : 0 ≤ d) : t.data = s.data ∧ t.pos = s.pos + d.toNat := by
  unfold seekRel seekAbs at h
  split at h
  · exact absurd h (by simp)
  · simp only [Option.some.injEq] at h
    refine ⟨by rw [← h], by rw [← h]; simp; omega⟩

theorem seekAbs_inv {s : BStream} {a : Int} {t : BStream}
    (h : seekAbs s a = some t) : t.data = s.data := by
  unfold seekAbs at h
  split at h
  · exact absurd h (by simp)
  · simp only [Option.some.injEq] at h
    rw [← h]

theorem seekAbs_pos_indep (data : List Nat) (p q : Nat) (a : Int) :
    seekAbs ⟨data, p⟩ a = seekAbs ⟨data, q⟩ a := by
  unfold seekAbs
  split <;> rfl

/-!
Inversion lemmas for the record decoders: what a successful decode tells
us about the produced record and the final cursor.
-/

theorem Object.decodeObject_inv {s : BStream} {i : Nat} {o : Object} {s1 : BStream}
    (h : Object.decode s i = some (o, s1)) :
    s1.data = s.data ∧ s1.pos = s.pos + 64 ∧ o.objectIdx = i ∧ o.meshes = none := by
  unfold Object.decode at h
  simp only [bind, Option.bind_eq_some, pure, Option.some.injEq, Prod.mk.injEq] at h
  obtain ⟨⟨a1, t1⟩, h1, ⟨a2, t2⟩, h2, ⟨a3, t3⟩, h3, ⟨a4, t4⟩, h4, ⟨a5, t5⟩, h5,
    ⟨a6, t6⟩, h6, t7, h7, ⟨a8, t8⟩, h8, ⟨a9, t9⟩, h9, ⟨a10, t10⟩, h10,
    ⟨a11, t11⟩, h11, ho, hs⟩ := h
  dsimp only at h1 h2 h3 h4 h5 h6 h7 h8 h9 h10 h11 ho hs
  obtain ⟨hd1, hp1⟩ := ReadByte_inv h1
  obtain ⟨hd2, hp2⟩ := ReadByte_inv h2
  obtain ⟨hd3, hp3⟩ := ReadSInt16_inv h3
  obtain ⟨hd4, hp4⟩ := ReadSInt32_inv h4
  obtain ⟨hd5, hp5⟩ := ReadSInt64_inv h5
  obtain ⟨hd6, hp6⟩ := ReadSInt32_inv h6
  obtain ⟨hd7, hp7⟩ := seekRel_inv h7 (by norm_num)
  obtain ⟨hd8, hp8⟩ := ReadFloat_inv h8
  obtain ⟨hd9, hp9⟩ := ReadFloat_inv h9
  obtain ⟨hd10, hp10⟩ := ReadFloat_inv h10
  obtain ⟨hd11, hp11⟩ := ReadFloat_inv h11
  refine ⟨?_, ?_, ?_, ?_⟩
  · rw [← hs, hd11, hd10, hd9, hd8, hd7, hd6, hd5, hd4, hd3, hd2, hd1]
  · rw [← hs]; omega
  · rw [← ho]
  · rw [← ho]

theorem Mesh.decodeMesh_inv {g : Model} {s : BStream} {i : Nat} {m : Mesh} {s1 : BStream}
    (h : Mesh.decode g s i = some (m, s1)) :
    s1.data = s.data ∧ s1.pos = s.pos + 80 ∧ m.meshIdx = i ∧
    m.positions = List.replicate m.vertCount.toNat none ∧
    m.normals = [] ∧ m.UVs = [] ∧ m.boneIndicies = [] ∧ m.boneWeights = [] ∧
    m.vertColour = [] ∧ m.triSkip = [] ∧ m.faces = [] ∧
    m.vertGrp = List.replicate g.boneCount.toNat none := by
  unfold Mesh.decode at h
  simp only [bind, Option.bind_eq_some, Option.some_bind, pure, Option.some.injEq,
    Prod.mk.injEq] at h
  obtain ⟨⟨a1, t1⟩, h1, ⟨a2, t2⟩, h2, t3, h3, ⟨a4, t4⟩, h4, ⟨a5, t5⟩, h5,
    ⟨a6, t6⟩, h6, hbr⟩ := h
  dsimp only at h1 h2 h3 h4 h5 h6 hbr
  obtain ⟨hd1, hp1⟩ := ReadSInt16_inv h1
  obtain ⟨hd2, hp2⟩ := ReadSInt16_inv h2
  obtain ⟨hd3, hp3⟩ := seekRel_inv h3 (by norm_num)
  obtain ⟨hd4, hp4⟩ := ReadSInt64_inv h4
  obtain ⟨hd5, hp5⟩ := ReadSInt64_inv h5
  obtain ⟨hd6, hp6⟩ := ReadSInt64_inv h6
  by_cases hid : g.Id = "SCM "
  · rw [if_neg (by simp [hid])] at hbr
    simp only [bind, Option.bind_eq_some, Option.some_bind, pure, Option.some.injEq,
      Prod.mk.injEq] at hbr
    obtain ⟨u1, hu1, ⟨a7, u2⟩, hu2, ⟨a8, u3⟩, hu3, u4, hu4, hm, hs⟩ := hbr
    dsimp only at hu1 hu2 hu3 hu4 hm hs
    obtain ⟨hda, hpa⟩ := seekRel_inv hu1 (by norm_num)
    obtain ⟨hdb, hpb⟩ := ReadSInt64_inv hu2
    obtain ⟨hdc, hpc⟩ := ReadSInt64_inv hu3
    obtain ⟨hdd, hpd⟩ := seekRel_inv hu4 (by norm_num)
    refine ⟨?_, ?_, ?_, ?_, ?_, ?_, ?_, ?_, ?_, ?_, ?_, ?_⟩
    · rw [← hs, hdd, hdc, hdb, hda, hd6, hd5, hd4, hd3, hd2, hd1]
    · rw [← hs]; omega
    all_goals rw [← hm]
  · rw [if_pos hid] at hbr
    simp only [bind, Option.bind_eq_some, Option.some_bind, pure, Option.some.injEq,
      Prod.mk.injEq] at hbr
    obtain ⟨⟨a7, u1⟩, hu1, ⟨a8, u2⟩, hu2, u3, hu3, ⟨a9, u4⟩, hu4, u5, hu5, hm, hs⟩ := hbr
    dsimp only at hu1 hu2 hu3 hu4 hu5 hm hs
    obtain ⟨hda, hpa⟩ := ReadSInt64_inv hu1
    obtain ⟨hdb, hpb⟩ := ReadSInt64_inv hu2
    obtain ⟨hdc, hpc⟩ := seekRel_inv hu3 (by norm_num)
    obtain ⟨hdd, hpd⟩ := ReadSInt64_inv hu4
    obtain ⟨hde, hpe⟩ := seekRel_inv hu5 (by norm_num)
    refine ⟨?_, ?_, ?_, ?_, ?_, ?_, ?_, ?_, ?_, ?_, ?_, ?_⟩
    · rw [← hs, hde, hdd, hdc, hdb, hda, hd6, hd5, hd4, hd3, hd2, hd1]
    · rw [← hs]; omega
    all_goals rw [← hm]

theorem readByteList_inv {n : Nat} {s : BStream} {l : List Int} {s1 : BStream}
    (h : readByteList s n = some (l, s1)) :
    s1.data = s.data ∧ s1.pos = s.pos + n ∧ l.length = n := by
  induction n generalizing s l s1 with
  | zero =>
    simp only [readByteList, Option.some.injEq, Prod.mk.injEq] at h
    obtain ⟨hl, hs⟩ := h
    exact ⟨by rw [← hs], by rw [← hs]; omega, by simp [← hl]⟩
  | succ n ih =>
    simp only [readByteList, bind, Option.bind_eq_some, pure, Option.some.injEq,
      Prod.mk.injEq] at h
    obtain ⟨⟨b, t⟩, hb, ⟨rest, t1⟩, hrest, hl, hs⟩ := h
    dsimp only at hb hrest hl hs
    obtain ⟨hd, hp⟩ := ReadByte_inv hb
    obtain ⟨hd1, hp1, hlen⟩ := ih hrest
    refine ⟨by rw [← hs, hd1, hd], by rw [← hs]; omega, by rw [← hl]; simp [hlen]⟩

theorem readBones_inv {n : Nat} {s : BStream} {i0 : Nat} {bs : List Bone} {s1 : BStream}
    (h : readBones s i0 n = some (bs, s1)) :
    s1.data = s.data ∧ s1.pos = s.pos + 32 * n ∧ bs.length = n ∧
    ∀ k, k < n → (bs[k]?).map Bone.idx = some (i0 + k) ∧
      (bs[k]?).map Bone.parent = some none := by
  induction n generalizing s i0 bs s1 with
  | zero =>
    simp only [readBones, Option.some.injEq, Prod.mk.injEq] at h
    obtain ⟨hl, hs⟩ := h
    exact ⟨by rw [← hs], by rw [← hs]; omega, by simp [← hl],
      fun k hk => absurd hk (by omega)⟩
  | succ n ih =>
    simp only [readBones, bind, Option.bind_eq_some, pure, Option.some.injEq,
      Prod.mk.injEq] at h
    obtain ⟨⟨x, t1⟩, hx, ⟨y, t2⟩, hy, ⟨z, t3⟩, hz, t4, ht4, ⟨rest, t5⟩, hrest, hl, hs⟩ := h
    dsimp only at hx hy hz ht4 hrest hl hs
    obtain ⟨hdx, hpx⟩ := ReadFloat_inv hx
    obtain ⟨hdy, hpy⟩ := ReadFloat_inv hy
    obtain ⟨hdz, hpz⟩ := ReadFloat_inv hz
    obtain ⟨hd4, hp4⟩ := seekRel_inv ht4 (by norm_num)
    obtain ⟨hd5, hp5, hlen, hidx⟩ := ih hrest
    refine ⟨by rw [← hs, hd5, hd4, hdz, hdy, hdx], by rw [← hs]; omega,
      by rw [← hl]; simp [hlen], ?_⟩
    intro k hk
    rw [← hl]
    match k with
    | 0 => simp
    | k + 1 =>
      have hfk := hidx k (by omega)
      simp only [List.getElem?_cons_succ]
      refine ⟨by rw [hfk.1]; congr 1; omega, hfk.2⟩

theorem decodeObjects_inv {n : Nat} {s : BStream} {i0 : Nat} {objs : List Object}
    {s1 : BStream} (h : decodeObjects s i0 n = some (objs, s1)) :
    s1.data = s.data ∧ s1.pos = s.pos + 64 * n ∧ objs.length = n ∧
    ∀ k, k < n → (objs[k]?).map Object.objectIdx = some (i0 + k) := by
  induction n generalizing s i0 objs s1 with
  | zero =>
    simp only [decodeObjects, Option.some.injEq, Prod.mk.injEq] at h
    obtain ⟨hl, hs⟩ := h
    exact ⟨by rw [← hs], by rw [← hs]; omega, by simp [← hl],
      fun k hk => absurd hk (by omega)⟩
  | succ n ih =>
    simp only [decodeObjects, bind, Option.bind_eq_some, pure, Option.some.injEq,
      Prod.mk.injEq] at h
    obtain ⟨⟨o, t⟩, ho, ⟨rest, t1⟩, hrest, hl, hs⟩ := h
    dsimp only at ho hrest hl hs
    obtain ⟨hd, hp, hoi, -⟩ := Object.decodeObject_inv ho
    obtain ⟨hd1, hp1, hlen, hidx⟩ := ih hrest
    refine ⟨by rw [← hs, hd1, hd], by rw [← hs]; omega, by rw [← hl]; simp [hlen], ?_⟩
    intro k hk
    rw [← hl]
    match k with
    | 0 => simpa using hoi
    | k + 1 =>
      have hfk := hidx k (by omega)
      simp only [List.getElem?_cons_succ]
      rw [hfk]
      congr 1
      omega

theorem decodeMeshes_inv {g : Model} {n : Nat} {s : BStream} {i0 : Nat} {ms : List Mesh}
    {s1 : BStream} (h : decodeMeshes g s i0 n = some (ms, s1)) :
    s1.data = s.data ∧ s1.pos = s.pos + 80 * n ∧ ms.length = n ∧
    ∀ k, k < n → (ms[k]?).map Mesh.meshIdx = some (i0 + k) := by
  induction n generalizing s i0 ms s1 with
  | zero =>
    simp only [decodeMeshes, Option.some.injEq, Prod.mk.injEq] at h
    obtain ⟨hl, hs⟩ := h
    exact ⟨by rw [← hs], by rw [← hs]; omega, by simp [← hl],
      fun k hk => absurd hk (by omega)⟩
  | succ n ih =>
    simp only [decodeMeshes, bind, Option.bind_eq_some, pure, Option.some.injEq,
      Prod.mk.injEq] at h
    obtain ⟨⟨o, t⟩, ho, ⟨rest, t1⟩, hrest, hl, hs⟩ := h
    dsimp only at ho hrest hl hs
    obtain ⟨hd, hp, hoi, -⟩ := Mesh.decodeMesh_inv ho
    obtain ⟨hd1, hp1, hlen, hidx⟩ := ih hrest
    refine ⟨by rw [← hs, hd1, hd], by rw [← hs]; omega, by rw [← hl]; simp [hlen], ?_⟩
    intro k hk
    rw [← hl]
    match k with
    | 0 => simpa using hoi
    | k + 1 =>
      have hfk := hidx k (by omega)
      simp only [List.getElem?_cons_succ]
      rw [hfk]
      congr 1
      omega

theorem seekAbs_inv2 {s : BStream} {a : Int} {t : BStream}
    (h : seekAbs s a = some t) : 0 ≤ a ∧ t.data = s.data ∧ t.pos = a.toNat := by
  unfold seekAbs at h
  split at h
  · exact absurd h (by simp)
  · simp only [Option.some.injEq] at h
    exact ⟨by omega, by rw [← h], by rw [← h]⟩

theorem modifyAt_length (l : List α) (k : Nat) (f : α → α) :
    (modifyAt l k f).length = l.length := by
  induction l generalizing k with
  | nil => rfl
  | cons a as ih =>
    match k with
    | 0 => rfl
    | k + 1 => simp [modifyAt, ih]

theorem modifyAt_getElem_ne (l : List α) (k j : Nat) (f : α → α) (h : j ≠ k) :
    (modifyAt l k f)[j]? = l[j]? := by
  induction l generalizing k j with
  | nil => rfl
  | cons a as ih =>
    match k, j with
    | 0, 0 => exact absurd rfl h
    | 0, j + 1 => simp [modifyAt]
    | k + 1, 0 => simp [modifyAt]
    | k + 1, j + 1 => simp [modifyAt, ih k j (by omega)]

theorem modifyAt_getElem_self (l : List α) (k : Nat) (f : α → α) :
    (modifyAt l k f)[k]? = (l[k]?).map f := by
  induction l generalizing k with
  | nil => rfl
  | cons a as ih =>
    match k with
    | 0 => simp [modifyAt]
    | k + 1 => simp [modifyAt, ih k]

theorem pyIdx_nonneg {n : Nat} {i : Int} {k : Nat} (h : pyIdx n i = some k) (hi : 0 ≤ i) :
    k = i.toNat ∧ i < (n : Int) := by
  unfold pyIdx at h
  split at h
  · next hc => simp only [Option.some.injEq] at h; exact ⟨h.symm, hc.2⟩
  · split at h
    · next hc => exact absurd hc.2 (by omega)
    · exact absurd h (by simp)

theorem remapParents_length {l : List (Int × Int)} {bones bones2 : List Bone}
    (h : remapParents bones l = some bones2) : bones2.length = bones.length := by
  induction l generalizing bones with
  | nil => simp only [remapParents, Option.some.injEq] at h; rw [← h]
  | cons pr rest ih =>
    obtain ⟨o, p⟩ := pr
    cases hpy : pyIdx bones.length o with
    | none => simp [remapParents, hpy] at h
    | some k =>
      simp only [remapParents, hpy] at h
      rw [ih h, modifyAt_length]

theorem remapParents_idx {l : List (Int × Int)} {bones bones2 : List Bone}
    (h : remapParents bones l = some bones2) (k : Nat) :
    (bones2[k]?).map Bone.idx = (bones[k]?).map Bone.idx := by
  induction l generalizing bones with
  | nil => simp only [remapParents, Option.some.injEq] at h; rw [← h]
  | cons pr rest ih =>
    obtain ⟨o, p⟩ := pr
    cases hpy : pyIdx bones.length o with
    | none => simp [remapParents, hpy] at h
    | some j =>
      simp only [remapParents, hpy] at h
      rw [ih h]
      by_cases hjk : k = j
      · subst hjk
        rw [modifyAt_getElem_self]
        cases bones[k]? <;> rfl
      · rw [modifyAt_getElem_ne _ _ _ _ hjk]

theorem remapParents_untouched {l : List (Int × Int)} {bones bones2 : List Bone} {k : Nat}
    (h : remapParents bones l = some bones2)
    (hk : ∀ pr ∈ l, pyIdx bones.length pr.1 ≠ some k) :
    bones2[k]? = bones[k]? := by
  induction l generalizing bones with
  | nil => simp only [remapParents, Option.some.injEq] at h; rw [← h]
  | cons pr rest ih =>
    obtain ⟨o, p⟩ := pr
    cases hpy : pyIdx bones.length o with
    | none => simp [remapParents, hpy] at h
    | some j =>
      simp only [remapParents, hpy] at h
      have hjk : j ≠ k := fun hj => hk (o, p) (by simp) (hj ▸ hpy)
      rw [ih h ?rest, modifyAt_getElem_ne _ _ _ _ (Ne.symm hjk)]
      intro pr hpr
      rw [modifyAt_length]
      exact hk pr (List.mem_cons_of_mem _ hpr)

theorem remapParents_writes {l : List (Int × Int)} {bones bones2 : List Bone}
    (h : remapParents bones l = some bones2)
    (hnd : (l.map Prod.fst).Nodup) (hnn : ∀ pr ∈ l, 0 ≤ pr.1) :
    ∀ pr ∈ l, (bones2[pr.1.toNat]?).map Bone.parent = some (some pr.2) := by
  induction l generalizing bones with
  | nil => intro pr hpr; exact absurd hpr (by simp)
  | cons hd rest ih =>
    obtain ⟨o, p⟩ := hd
    cases hpy : pyIdx bones.length o with
    | none => simp [remapParents, hpy] at h
    | some j =>
      simp only [remapParents, hpy] at h
      have hno : 0 ≤ o := hnn (o, p) (by simp)
      obtain ⟨hj, holt⟩ := pyIdx_nonneg hpy hno
      subst hj
      simp only [List.map_cons, List.nodup_cons] at hnd
      obtain ⟨hmem, hnd2⟩ := hnd
      intro pr hpr
      rcases List.mem_cons.mp hpr with heq | hmem2
      · subst heq
        have huntouched : bones2[o.toNat]? = (modifyAt bones o.toNat fun b => { b with parent := some p })[o.toNat]? := by
          apply remapParents_untouched h
          intro pr2 hpr2 hcontra
          rw [modifyAt_length] at hcontra
          have hnn2 : 0 ≤ pr2.1 := hnn pr2 (List.mem_cons_of_mem _ hpr2)
          obtain ⟨hj2, -⟩ := pyIdx_nonneg hcontra hnn2
          have : pr2.1 = o := by omega
          exact hmem (this ▸ List.mem_map_of_mem Prod.fst hpr2)
        have hlt : o.toNat < bones.length := by omega
        rw [huntouched, modifyAt_getElem_self, List.getElem?_eq_getElem hlt]
        rfl
      · exact ih h hnd2 (fun pr2 hpr2 => hnn pr2 (List.mem_cons_of_mem _ hpr2)) pr hmem2

theorem zip_getElem_mem {l1 : List α} {l2 : List β} {i : Nat} {a : α} {b : β}
    (h1 : l1[i]? = some a) (h2 : l2[i]? = some b) : (a, b) ∈ l1.zip l2 := by
  induction l1 generalizing l2 i with
  | nil => simp at h1
  | cons x xs ih =>
    cases l2 with
    | nil => simp at h2
    | cons y ys =>
      match i with
      | 0 =>
        simp only [List.getElem?_cons_zero, Option.some.injEq] at h1 h2
        simp [List.zip_cons_cons, ← h1, ← h2]
      | i + 1 =>
        simp only [List.getElem?_cons_succ] at h1 h2
        exact List.mem_cons_of_mem _ (ih h1 h2)

theorem Skeleton.decodeSkeleton_inv {s : BStream} {bc : Int} {sk : Skeleton} {s1 : BStream}
    (h : Skeleton.decode s bc = some (sk, s1)) :
    sk.boneCount = bc ∧
    sk.hierarchy.length = bc.toNat ∧
    sk.hierarchyOrder.length = bc.toNat ∧
    sk.childIndices.length = bc.toNat ∧
    sk.parents = List.replicate bc.toNat (-1) ∧
    sk.bones.length = bc.toNat ∧
    (∀ k, k < bc.toNat → (sk.bones[k]?).map Bone.idx = some k) ∧
    ∃ bones0 : List Bone, bones0.length = bc.toNat ∧
      remapParents bones0 (sk.hierarchyOrder.zip sk.hierarchy) = some sk.bones := by
  unfold Skeleton.decode at h
  simp only [bind, Option.bind_eq_some, Option.some_bind, pure, Option.some.injEq,
    Prod.mk.injEq] at h
  obtain ⟨⟨a1, t1⟩, h1, ⟨a2, t2⟩, h2, ⟨a3, t3⟩, h3, ⟨a4, t4⟩, h4, t5, h5,
    ⟨hier, t6⟩, h6, t7, h7, ⟨order, t8⟩, h8, t9, h9, ⟨child, t10⟩, h10,
    t11, h11, ⟨bones0, t12⟩, h12, bones, hrm, hsk, hs⟩ := h
  dsimp only at h1 h2 h3 h4 h5 h6 h7 h8 h9 h10 h11 h12 hrm hsk hs
  obtain ⟨-, -, hlh⟩ := readByteList_inv h6
  obtain ⟨-, -, hlo⟩ := readByteList_inv h8
  obtain ⟨-, -, hlc⟩ := readByteList_inv h10
  obtain ⟨-, -, hlb, hbidx⟩ := readBones_inv h12
  have hrml := remapParents_length hrm
  refine ⟨by rw [← hsk], by rw [← hsk]; exact hlh, by rw [← hsk]; exact hlo,
    by rw [← hsk]; exact hlc, by rw [← hsk], by rw [← hsk]; dsimp only; omega, ?_, ?_⟩
  · intro k hk
    rw [← hsk]
    dsimp only
    rw [remapParents_idx hrm k, (hbidx k hk).1]
    simp
  · refine ⟨bones0, hlb, ?_⟩
    rw [← hsk]
    exact hrm

theorem Model.ParseObjects_inv {m m1 : Model} {s s1 : BStream}
    (h : Model.ParseObjects m s = some (m1, s1)) :
    s1.data = s.data ∧ s1.pos = 64 + 64 * m.objectCount.toNat ∧
    m1.objects.length = m.objectCount.toNat ∧
    (∀ k, k < m.objectCount.toNat → (m1.objects[k]?).map Object.objectIdx = some k) ∧
    m1.Id = m.Id ∧ m1.boneCount = m.boneCount := by
  unfold Model.ParseObjects at h
  simp only [bind, Option.bind_eq_some, Option.some_bind, pure, Option.some.injEq,
    Prod.mk.injEq] at h
  obtain ⟨t1, h1, ⟨objs, t2⟩, h2, hm, hs⟩ := h
  dsimp only at h1 h2 hm hs
  obtain ⟨-, hd1, hp1⟩ := seekAbs_inv2 h1
  obtain ⟨hd2, hp2, hlen, hidx⟩ := decodeObjects_inv h2
  refine ⟨by rw [← hs, hd2, hd1], by rw [← hs]; omega, by rw [← hm]; exact hlen,
    ?_, by rw [← hm], by rw [← hm]⟩
  intro k hk
  rw [← hm]
  dsimp only
  simpa using hidx k hk

theorem Model.ParseObjects_pos_indep (m : Model) (data : List Nat) (p q : Nat) :
    Model.ParseObjects m ⟨data, p⟩ = Model.ParseObjects m ⟨data, q⟩ := by
  unfold Model.ParseObjects
  rw [seekAbs_pos_indep data p q 0x40]

theorem Object.ParseMeshes_inv {g : Model} {o o1 : Object} {s s1 : BStream}
    (h : Object.ParseMeshes g o s = some (o1, s1)) :
    0 ≤ o.mshOffs ∧ s1.data = s.data ∧
    s1.pos = o.mshOffs.toNat + 80 * o.meshCount.toNat ∧
    ∃ ms, o1 = { o with meshes := some ms } ∧ ms.length = o.meshCount.toNat ∧
      (∀ k, k < o.meshCount.toNat → (ms[k]?).map Mesh.meshIdx = some k) := by
  unfold Object.ParseMeshes at h
  simp only [bind, Option.bind_eq_some, Option.some_bind, pure, Option.some.injEq,
    Prod.mk.injEq] at h
  obtain ⟨t1, h1, ⟨ms, t2⟩, h2, hm, hs⟩ := h
  dsimp only at h1 h2 hm hs
  obtain ⟨hnn, hd1, hp1⟩ := seekAbs_inv2 h1
  obtain ⟨hd2, hp2, hlen, hidx⟩ := decodeMeshes_inv h2
  refine ⟨hnn, by rw [← hs, hd2, hd1], by rw [← hs]; omega, ms, by rw [← hm], hlen, ?_⟩
  intro k hk
  simpa using hidx k hk

theorem Object.ParseMeshes_pos_indep (g : Model) (o : Object) (data : List Nat) (p q : Nat) :
    Object.ParseMeshes g o ⟨data, p⟩ = Object.ParseMeshes g o ⟨data, q⟩ := by
  unfold Object.ParseMeshes
  rw [seekAbs_pos_indep data p q o.mshOffs]

/-!
Totality of header decoding: the header reader performs no validation at
all, so it succeeds on any buffer holding at least the 40 header bytes.
-/

theorem Model.decode_total (data : List Nat) (p : Nat) (h : p + 40 ≤ data.length) :
    ∃ m s1, Model.decode ⟨data, p⟩ = some (m, s1) ∧ s1.data = data ∧ s1.pos = p + 40 ∧
      m.objects = [] ∧ m.skeleton = none := by
  unfold Model.decode ReadString ReadFloat ReadSInt64 ReadUByte ReadByte ReadSInt32
  rw [readBytes_eq (by simp; omega)]
  simp only [Option.map_some', Option.some_bind, bind, pure]
  rw [readBytes_eq (by simp; omega)]
  simp only [Option.map_some', Option.some_bind]
  rw [readBytes_eq (by simp; omega)]
  simp only [Option.map_some', Option.some_bind]
  rw [readBytes_eq (by simp; omega)]
  simp only [Option.map_some', Option.some_bind]
  rw [readBytes_eq (by simp; omega)]
  simp only [Option.map_some', Option.some_bind]
  rw [readBytes_eq (by simp; omega)]
  simp only [Option.map_some', Option.some_bind]
  rw [readBytes_eq (by simp; omega)]
  simp only [Option.map_some', Option.some_bind]
  rw [readBytes_eq (by simp; omega)]
  simp only [Option.map_some', Option.some_bind]
  rw [readBytes_eq (by simp; omega)]
  simp only [Option.map_some', Option.some_bind]
  rw [readBytes_eq (by simp; omega)]
  simp only [Option.map_some', Option.some_bind]
  exact ⟨_, _, rfl, rfl, rfl, rfl, rfl⟩

/-!
The mesh decoder is a function of the ambient model only through the
baked/static-tag test and the bone count.
-/

theorem Mesh.decode_ctx (g g2 : Model) (s : BStream) (i : Nat)
    (hbc : g.boneCount = g2.boneCount)
    (hid : (g.Id = "SCM ") ↔ (g2.Id = "SCM ")) :
    Mesh.decode g s i = Mesh.decode g2 s i := by
  unfold Mesh.decode
  rw [hbc]
  simp only [ne_eq, hid]

/-!
Concrete inputs used to exercise the decoders at specific byte layouts.
-/

/-- A minimal model shell carrying only the fields the mesh decoder reads
from the ambient model (format tag and bone count). -/
def mkShell (id : String) (bc : Int) : Model :=
  { Id := id, version := 0, padding := 0, objectCount := 0, boneCount := bc,
    numTex := 0, uknByte := 0, ukn := 0, ukn2 := 0, skeletonOffs := 0,
    objects := [], skeleton := none }

/-- A 40-byte header whose tag "ZZZZ" is neither of the two recognized
tags. -/
def headerBytesZZZZ : List Nat := [90, 90, 90, 90] ++ List.replicate 36 0

/-- An 80-byte mesh header with vertex count 2 (all offsets zero). -/
def meshBytesC4 : List Nat := [2, 0, 5, 0] ++ List.replicate 76 0

/-- An 80-byte mesh header with a distinct marker byte at the start of
every field, to pin down the byte position each field is read from. -/
def meshBytesC5 : List Nat :=
  [1, 0, 2, 0] ++ List.replicate 12 0 ++
  [17, 0, 0, 0, 0, 0, 0, 0] ++ [18, 0, 0, 0, 0, 0, 0, 0] ++ [19, 0, 0, 0, 0, 0, 0, 0] ++
  [20, 0, 0, 0, 0, 0, 0, 0] ++ [21, 0, 0, 0, 0, 0, 0, 0] ++ [33, 0, 0, 0, 0, 0, 0, 0] ++
  [22, 0, 0, 0, 0, 0, 0, 0] ++ List.replicate 8 0

/-- Two mesh headers back to back after a 4-byte gap: the mesh table of
an object with mesh-table offset 4 and mesh count 2. -/
def meshTableBytesC5 : List Nat := List.replicate 4 0 ++ meshBytesC5 ++ meshBytesC5

/-- A 64-byte object record with a distinct value in every field. -/
def objBytesC6 : List Nat :=
  [3, 4, 1, 1] ++ [9, 0, 0, 0] ++ [64, 0, 0, 0, 0, 0, 0, 0] ++ [6, 0, 0, 0] ++
  List.replicate 28 0 ++
  [1, 0, 0, 0] ++ [2, 0, 0, 0] ++ [3, 0, 0, 0] ++ [4, 0, 0, 0]

/-- An object table at the fixed base 0x40 holding two object records. -/
def objTableBytesC6 : List Nat := List.replicate 64 0 ++ objBytesC6 ++ objBytesC6

/-- A skeleton block at position 0 with boneCount 3,
hierarchy = [2, -1, 0] and hierarchyOrder = [1, 2, 0] (the spec's
permutation test vector); the transform table is all zeros. -/
def skelBytesC1 : List Nat :=
  [16, 0, 0, 0, 19, 0, 0, 0, 22, 0, 0, 0, 25, 0, 0, 0] ++
  [2, 255, 0] ++ [1, 2, 0] ++ [0, 0, 0] ++ List.replicate 76 0

/-- A skeleton block with a parent cycle: hierarchy = [1, 0, -1] under the
identity order, so bone 0's parent is bone 1 and bone 1's parent is
bone 0. -/
def skelBytesC3 : List Nat :=
  [16, 0, 0, 0, 19, 0, 0, 0, 22, 0, 0, 0, 25, 0, 0, 0] ++
  [1, 0, 255] ++ [0, 1, 2] ++ [0, 0, 0] ++ List.replicate 76 0

/-- A skeleton block whose first parent index (100) is far beyond the
bone count of 3. -/
def skelBytesC3b : List Nat :=
  [16, 0, 0, 0, 19, 0, 0, 0, 22, 0, 0, 0, 25, 0, 0, 0] ++
  [100, 0, 255] ++ [0, 1, 2] ++ [0, 0, 0] ++ List.replicate 76 0

/-- A skeleton block that starts at buffer position 4 (after four junk
bytes), with table offsets 16/19/22/25 relative to that start and
distinct values in every table, to pin down the base-relative offset
interpretation and the per-bone 12-byte-read/0x14-byte-skip stride. -/
def skelBytesC7 : List Nat :=
  [9, 9, 9, 9] ++
  [16, 0, 0, 0, 19, 0, 0, 0, 22, 0, 0, 0, 25, 0, 0, 0] ++
  [1, 2, 255] ++ [0, 1, 2] ++ [7, 8, 9] ++
  [1, 0, 0, 0] ++ List.replicate 28 0 ++
  [2, 0, 0, 0] ++ List.replicate 28 0 ++
  [3, 0, 0, 0] ++ List.replicate 8 0

/-- A one-bone skeleton block. -/
def skelBytesC10 : List Nat :=
  [16, 0, 0, 0, 17, 0, 0, 0, 18, 0, 0, 0, 19, 0, 0, 0] ++
  [0] ++ [0] ++ [0] ++ List.replicate 12 0

/-!
The claims.
-/

/-- C1: Skeleton parent reconstruction is permutation-indexed, not
positional — for a successfully decoded skeleton whose order table is a
list of distinct non-negative indices, the bone at index
`hierarchyOrder[i]` receives the parent value `hierarchy[i]`. -/
theorem skeletonParentPermutation {s s1 : BStream} {bc : Int} {sk : Skeleton}
    (hdec : Skeleton.decode s bc = some (sk, s1))
    (hnn : ∀ o ∈ sk.hierarchyOrder, 0 ≤ o)
    (hnd : sk.hierarchyOrder.Nodup)
    (i : Nat) (o p : Int)
    (ho : sk.hierarchyOrder[i]? = some o) (hp : sk.hierarchy[i]? = some p) :
    (sk.bones[o.toNat]?).map Bone.parent = some (some p) := by
  obtain ⟨-, hlh, hlo, -, -, -, -, bones0, hb0, hrm⟩ := Skeleton.decodeSkeleton_inv hdec
  have hmem : (o, p) ∈ sk.hierarchyOrder.zip sk.hierarchy := zip_getElem_mem ho hp
  have hnd2 : ((sk.hierarchyOrder.zip sk.hierarchy).map Prod.fst).Nodup := by
    rw [List.map_fst_zip _ _ (by omega)]
    exact hnd
  have hnn2 : ∀ pr ∈ sk.hierarchyOrder.zip sk.hierarchy, 0 ≤ pr.1 := by
    intro pr hpr
    exact hnn pr.1 (List.of_mem_zip hpr).1
  exact remapParents_writes hrm hnd2 hnn2 (o, p) hmem

/-- Witness for C1 at the spec's test vector `hierarchy = [2, -1, 0]`,
`hierarchyOrder = [1, 2, 0]`: bone 1's parent is 2, bone 2's parent is
-1, bone 0's parent is 0. -/
theorem skeletonParentPermutation_witness :
    ∃ sk s1, Skeleton.decode ⟨skelBytesC1, 0⟩ 3 = some (sk, s1) ∧
      (sk.bones[1]?).map Bone.parent = some (some 2) ∧
      (sk.bones[2]?).map Bone.parent = some (some (-1)) ∧
      (sk.bones[0]?).map Bone.parent = some (some 0) := by
  have hdec : Skeleton.decode ⟨skelBytesC1, 0⟩ 3 = some
      ({ boneCount := 3, hierarchyOffs := 16, hierarchyOrderOffs := 19,
         childIdxOffs := 22, transformsOffs := 25,
         bones := [{ position := ⟨0, 0, 0⟩, idx := 0, parent := some 0 },
                   { position := ⟨0, 0, 0⟩, idx := 1, parent := some 2 },
                   { position := ⟨0, 0, 0⟩, idx := 2, parent := some (-1) }],
         hierarchy := [2, -1, 0], hierarchyOrder := [1, 2, 0],
         childIndices := [0, 0, 0], parents := [-1, -1, -1] },
       ⟨skelBytesC1, 121⟩) := rfl
  refine ⟨_, _, hdec, ?_, ?_, ?_⟩
  · exact skeletonParentPermutation hdec (by decide) (by decide) 0 1 2
      (by decide) (by decide)
  · exact skeletonParentPermutation hdec (by decide) (by decide) 1 2 (-1)
      (by decide) (by decide)
  · exact skeletonParentPermutation hdec (by decide) (by decide) 2 0 0
      (by decide) (by decide)

/-- C2 counterexample: the header decoder accepts the tag "ZZZZ", which
is neither of the two recognized tags — decoding succeeds instead of
failing with `MalformedHeader`. -/
theorem headerUnrecognizedTagAccepted :
    "ZZZZ" ≠ "SCM " ∧ "ZZZZ" ≠ "MOD " ∧
    ((Model.decode ⟨headerBytesZZZZ, 0⟩).map fun r => r.1.Id) = some "ZZZZ" ∧
    (Model.decode ⟨headerBytesZZZZ, 0⟩).isSome = true := by
  exact ⟨by decide, by decide, rfl, rfl⟩

/-- C2 (amended): header decoding performs no tag validation at all — on
any buffer holding the 40 header bytes it succeeds and produces the
Model shell, whatever the 4-byte tag. -/
theorem headerDecodesWithoutTagValidation (data : List Nat) (h : 40 ≤ data.length) :
    ∃ m s1, Model.decode ⟨data, 0⟩ = some (m, s1) ∧ s1.data = data ∧ s1.pos = 40 ∧
      m.objects = [] ∧ m.skeleton = none := by
  simpa using Model.decode_total data 0 (by omega)

/-- Witness for C2 on an all-zero 40-byte header. -/
theorem headerDecodesWithoutTagValidation_witness :
    ∃ m s1, Model.decode ⟨List.replicate 40 0, 0⟩ = some (m, s1) ∧
      s1.data = List.replicate 40 0 ∧ s1.pos = 40 ∧
      m.objects = [] ∧ m.skeleton = none :=
  headerDecodesWithoutTagValidation (List.replicate 40 0) (by simp)

/-- C3 counterexample: the 3-bone skeleton in which bone 0's parent is
bone 1 and bone 1's parent is bone 0 decodes successfully — no
`CyclicHierarchy` error is raised. -/
theorem skeletonCycleUndetected :
    (Skeleton.decode ⟨skelBytesC3, 0⟩ 3).isSome = true ∧
    ((Skeleton.decode ⟨skelBytesC3, 0⟩ 3).map fun r =>
      ((r.1.bones[0]?).map Bone.parent, (r.1.bones[1]?).map Bone.parent)) =
      some (some (some 1), some (some 0)) := by
  exact ⟨rfl, rfl⟩

/-- C3 (amended): after the parent assignment the decoder performs no
hierarchy validation whatsoever — the cyclic 3-bone skeleton decodes
successfully with its cycle intact, and a parent index (100) far beyond
the bone count is likewise accepted as-is. -/
theorem skeletonNoHierarchyValidation :
    (((Skeleton.decode ⟨skelBytesC3, 0⟩ 3).map fun r => r.1.bones.map Bone.parent) =
      some [some 1, some 0, some (-1)]) ∧
    (((Skeleton.decode ⟨skelBytesC3b, 0⟩ 3).map fun r => r.1.bones.map Bone.parent) =
      some [some 100, some 0, some (-1)]) := by
  exact ⟨rfl, rfl⟩

/-- C4 counterexample: the `positions` buffer list is not initialized
empty — a mesh header with vertex count 2 yields a 2-entry placeholder
list. -/
theorem meshPositionsNotEmpty :
    ((Mesh.decode (mkShell "MOD " 3) ⟨meshBytesC4, 0⟩ 0).map fun r => r.1.positions) =
      some [none, none] ∧ ([none, none] : List (Option Vec3)) ≠ [] := by
  exact ⟨rfl, by decide⟩

/-- C4 (amended): after mesh-header decoding, `positions` is a
placeholder list of length `vertCount` (entries unset), every other
buffer list (normals, UVs, bone indices, weights, vertex colors, triSkip,
faces) is empty, and the vertex-group list has one unset entry per bone
of the ambient model. -/
theorem meshBufferInitialization {g : Model} {s : BStream} {i : Nat} {m : Mesh}
    {s1 : BStream} (h : Mesh.decode g s i = some (m, s1)) :
    m.positions = List.replicate m.vertCount.toNat none ∧
    m.normals = [] ∧ m.UVs = [] ∧ m.boneIndicies = [] ∧ m.boneWeights = [] ∧
    m.vertColour = [] ∧ m.triSkip = [] ∧ m.faces = [] ∧
    m.vertGrp = List.replicate g.boneCount.toNat none := by
  obtain ⟨-, -, -, h4, h5, h6, h7, h8, h9, h10, h11, h12⟩ := Mesh.decodeMesh_inv h
  exact ⟨h4, h5, h6, h7, h8, h9, h10, h11, h12⟩

/-- Witness for C4 at the concrete 2-vertex mesh header. -/
theorem meshBufferInitialization_witness :
    ∃ m s1, Mesh.decode (mkShell "MOD " 3) ⟨meshBytesC4, 0⟩ 0 = some (m, s1) ∧
      m.positions = List.replicate m.vertCount.toNat none ∧
      m.normals = [] ∧ m.UVs = [] ∧ m.boneIndicies = [] ∧ m.boneWeights = [] ∧
      m.vertColour = [] ∧ m.triSkip = [] ∧ m.faces = [] ∧
      m.vertGrp = List.replicate (3 : Int).toNat none := by
  obtain ⟨m, s1, hdec⟩ :
      ∃ m s1, Mesh.decode (mkShell "MOD " 3) ⟨meshBytesC4, 0⟩ 0 = some (m, s1) :=
    ⟨_, _, rfl⟩
  exact ⟨m, s1, hdec, meshBufferInitialization hdec⟩

/-- C5: mesh-header layout — the common prefix (vertex count, texture
index, 12-byte padding, three 8-byte offsets), the skinned branch (two
further 8-byte offsets and 8 bytes padding) versus the baked branch
(16 bytes padding and one 8-byte offset), both followed by one 8-byte
scalar and 8 trailing bytes (80 bytes in all), with the meshCount headers
of one object read sequentially after a single seek to the object's
mesh-table offset. -/
theorem meshHeaderLayout :
    (Mesh.decode (mkShell "MOD " 2) ⟨meshBytesC5, 0⟩ 0 = some
      ({ meshIdx := 0, vertCount := 1, texInd := 2, positionsOffs := 17,
         normalsOffs := 18, UVsOffs := 19, boneIndiciesOffs := some 20,
         weightsOffs := some 21, uknOffs := none, ukn := 22,
         positions := [none], normals := [], UVs := [], boneIndicies := [],
         boneWeights := [], vertColour := [], triSkip := [], faces := [],
         vertGrp := [none, none] }, ⟨meshBytesC5, 80⟩)) ∧
    (Mesh.decode (mkShell "SCM " 3) ⟨meshBytesC5, 0⟩ 0 = some
      ({ meshIdx := 0, vertCount := 1, texInd := 2, positionsOffs := 17,
         normalsOffs := 18, UVsOffs := 19, boneIndiciesOffs := none,
         weightsOffs := none, uknOffs := some 33, ukn := 22,
         positions := [none], normals := [], UVs := [], boneIndicies := [],
         boneWeights := [], vertColour := [], triSkip := [], faces := [],
         vertGrp := [none, none, none] }, ⟨meshBytesC5, 80⟩)) ∧
    (∀ g s i m s1, Mesh.decode g s i = some (m, s1) →
      s1.data = s.data ∧ s1.pos = s.pos + 80 ∧ m.meshIdx = i) ∧
    (∀ g o data p q, Object.ParseMeshes g o ⟨data, p⟩ = Object.ParseMeshes g o ⟨data, q⟩) ∧
    (∀ g o o1 s s1, Object.ParseMeshes g o s = some (o1, s1) →
      ∃ ms, o1.meshes = some ms ∧ ms.length = o.meshCount.toNat ∧
        ∀ k, k < o.meshCount.toNat → (ms[k]?).map Mesh.meshIdx = some k) := by
  refine ⟨rfl, rfl, ?_, ?_, ?_⟩
  · intro g s i m s1 h
    obtain ⟨h1, h2, h3, -⟩ := Mesh.decodeMesh_inv h
    exact ⟨h1, h2, h3⟩
  · intro g o data p q
    exact Object.ParseMeshes_pos_indep g o data p q
  · intro g o o1 s s1 h
    obtain ⟨-, -, -, ms, hm, hlen, hidx⟩ := Object.ParseMeshes_inv h
    exact ⟨ms, by rw [hm], hlen, hidx⟩

/-- Witness for C5: a two-mesh table, decoded from an arbitrary prior
cursor position, yields meshes indexed 0 and 1. -/
theorem meshHeaderLayout_witness :
    ∃ o1 s1, Object.ParseMeshes (mkShell "MOD " 2)
      { objectIdx := 0, meshCount := 2, ukn := 0, numVerts := 0, mshOffs := 4,
        flags := 0, X := 0, Y := 0, Z := 0, radius := 0, meshes := none }
      ⟨meshTableBytesC5, 99⟩ = some (o1, s1) ∧
      ∃ ms, o1.meshes = some ms ∧ ms.length = 2 ∧
        (ms[0]?).map Mesh.meshIdx = some 0 ∧ (ms[1]?).map Mesh.meshIdx = some 1 := by
  obtain ⟨o1, s1, hdec⟩ :
      ∃ o1 s1, Object.ParseMeshes (mkShell "MOD " 2)
        { objectIdx := 0, meshCount := 2, ukn := 0, numVerts := 0, mshOffs := 4,
          flags := 0, X := 0, Y := 0, Z := 0, radius := 0, meshes := none }
        ⟨meshTableBytesC5, 99⟩ = some (o1, s1) := ⟨_, _, rfl⟩
  obtain ⟨ms, hm, hlen, hidx⟩ := meshHeaderLayout.2.2.2.2 _ _ _ _ _ hdec
  exact ⟨o1, s1, hdec, ms, hm, by simpa using hlen,
    by simpa using hidx 0 (by norm_num), by simpa using hidx 1 (by norm_num)⟩

/-- C6: object-table decoding — a single seek to the fixed base 0x40,
then per object the fields mesh count, unknown byte, vertex count, a
discarded 4-byte int, the 8-byte mesh-table offset, 4-byte flags, 28
discarded bytes and four floats, read back to back (64 bytes each), each
object appended in table order so that its list index equals its table
position. -/
theorem objectTableDecoding :
    (Object.decode ⟨objBytesC6, 0⟩ 5 = some
      ({ objectIdx := 5, meshCount := 3, ukn := 4, numVerts := 257, mshOffs := 64,
         flags := 6, X := 1, Y := 2, Z := 3, radius := 4, meshes := none },
       ⟨objBytesC6, 64⟩)) ∧
    (∀ s i o s1, Object.decode s i = some (o, s1) →
      s1.data = s.data ∧ s1.pos = s.pos + 64 ∧ o.objectIdx = i) ∧
    (∀ m data p q, Model.ParseObjects m ⟨data, p⟩ = Model.ParseObjects m ⟨data, q⟩) ∧
    (∀ m m1 s s1, Model.ParseObjects m s = some (m1, s1) →
      m1.objects.length = m.objectCount.toNat ∧
      ∀ k, k < m.objectCount.toNat → (m1.objects[k]?).map Object.objectIdx = some k) := by
  refine ⟨rfl, ?_, ?_, ?_⟩
  · intro s i o s1 h
    obtain ⟨h1, h2, h3, -⟩ := Object.decodeObject_inv h
    exact ⟨h1, h2, h3⟩
  · intro m data p q
    exact Model.ParseObjects_pos_indep m data p q
  · intro m m1 s s1 h
    obtain ⟨-, -, hlen, hidx, -, -⟩ := Model.ParseObjects_inv h
    exact ⟨hlen, hidx⟩

/-- Witness for C6: a two-object table decode yields objects with list
indices 0 and 1. -/
theorem objectTableDecoding_witness :
    ∃ m1 s1, Model.ParseObjects { mkShell "MOD " 0 with objectCount := 2 }
      ⟨objTableBytesC6, 0⟩ = some (m1, s1) ∧
      m1.objects.length = 2 ∧
      (m1.objects[0]?).map Object.objectIdx = some 0 ∧
      (m1.objects[1]?).map Object.objectIdx = some 1 := by
  obtain ⟨m1, s1, hdec⟩ :
      ∃ m1 s1, Model.ParseObjects { mkShell "MOD " 0 with objectCount := 2 }
        ⟨objTableBytesC6, 0⟩ = some (m1, s1) := ⟨_, _, rfl⟩
  obtain ⟨hlen, hidx⟩ := objectTableDecoding.2.2.2 _ _ _ _ hdec
  exact ⟨m1, s1, hdec, by simpa using hlen,
    by simpa using hidx 0 (by norm_num), by simpa using hidx 1 (by norm_num)⟩

/-- C7: skeleton decoding — the four 4-byte table offsets are
interpreted relative to the skeleton block's own start (demonstrated
here with the block starting at buffer position 4); each index table
contributes exactly boneCount single-byte values; the transform table is
read as 3 floats then a 0x14-byte skip per bone; and the bones carry
indices 0..boneCount-1 in order. -/
theorem skeletonTableDecoding :
    (Skeleton.decode ⟨skelBytesC7, 4⟩ 3 = some
      ({ boneCount := 3, hierarchyOffs := 16, hierarchyOrderOffs := 19,
         childIdxOffs := 22, transformsOffs := 25,
         bones := [{ position := ⟨1, 0, 0⟩, idx := 0, parent := some 1 },
                   { position := ⟨2, 0, 0⟩, idx := 1, parent := some 2 },
                   { position := ⟨3, 0, 0⟩, idx := 2, parent := some (-1) }],
         hierarchy := [1, 2, -1], hierarchyOrder := [0, 1, 2],
         childIndices := [7, 8, 9], parents := [-1, -1, -1] },
       ⟨skelBytesC7, 125⟩)) ∧
    (∀ s bc sk s1, Skeleton.decode s bc = some (sk, s1) →
      sk.hierarchy.length = bc.toNat ∧ sk.hierarchyOrder.length = bc.toNat ∧
      sk.childIndices.length = bc.toNat ∧ sk.bones.length = bc.toNat ∧
      ∀ k, k < bc.toNat → (sk.bones[k]?).map Bone.idx = some k) := by
  refine ⟨rfl, ?_⟩
  intro s bc sk s1 h
  obtain ⟨-, h2, h3, h4, -, h6, h7, -⟩ := Skeleton.decodeSkeleton_inv h
  exact ⟨h2, h3, h4, h6, h7⟩

/-- Witness for C7 at the concrete skeleton block based at position 4. -/
theorem skeletonTableDecoding_witness :
    ∃ sk s1, Skeleton.decode ⟨skelBytesC7, 4⟩ 3 = some (sk, s1) ∧
      sk.hierarchy.length = 3 ∧ sk.hierarchyOrder.length = 3 ∧
      sk.childIndices.length = 3 ∧ sk.bones.length = 3 ∧
      (sk.bones[0]?).map Bone.idx = some 0 ∧
      (sk.bones[1]?).map Bone.idx = some 1 ∧
      (sk.bones[2]?).map Bone.idx = some 2 := by
  obtain ⟨sk, s1, hdec⟩ :
      ∃ sk s1, Skeleton.decode ⟨skelBytesC7, 4⟩ 3 = some (sk, s1) := ⟨_, _, rfl⟩
  obtain ⟨h2, h3, h4, h6, h7⟩ := skeletonTableDecoding.2 _ _ _ _ hdec
  exact ⟨sk, s1, hdec, by simpa using h2, by simpa using h3, by simpa using h4,
    by simpa using h6, by simpa using h7 0 (by norm_num),
    by simpa using h7 1 (by norm_num), by simpa using h7 2 (by norm_num)⟩

/-- C8: triangle-strip unrolling — a skip marker resets the sliding
window without emitting a face; an index meeting a full window emits
exactly one triangle (winding alternating) and slides into the window;
and the stream [a, b, c, SKIP, d, e, f] unrolls to exactly the faces
(a, b, c) and, after the restart, (d, e, f). -/
theorem triangleStripUnrolling :
    (∀ st : StripState, stripStep st .skip = (⟨[], false⟩, [])) ∧
    (∀ (u w v : Nat) (fl : Bool), stripStep ⟨[u, w], fl⟩ (.idx v) =
      (⟨[w, v], !fl⟩, [if fl then (w, u, v) else (u, w, v)])) ∧
    (∀ a b c d e f : Nat,
      unrollStrip [.idx a, .idx b, .idx c, .skip, .idx d, .idx e, .idx f] =
        [(a, b, c), (d, e, f)]) := by
  exact ⟨fun st => rfl, fun u w v fl => rfl, fun a b c d e f => rfl⟩

/-- C9: mesh-header decoding reads the ambient current model — its
output is determined by the stream together with the ambient model's
baked-tag status and bone count (first conjunct), and two decodes of the
very same bytes at the same cursor differ in field layout (which offset
fields are populated) and in vertex-group size when the ambient model
differs (remaining conjuncts). -/
theorem meshDecodeGlobalDependence :
    (∀ g g2 s i, g.boneCount = g2.boneCount → ((g.Id = "SCM ") ↔ (g2.Id = "SCM ")) →
      Mesh.decode g s i = Mesh.decode g2 s i) ∧
    (Mesh.decode (mkShell "MOD " 2) ⟨meshBytesC5, 0⟩ 0 ≠
      Mesh.decode (mkShell "SCM " 3) ⟨meshBytesC5, 0⟩ 0) ∧
    ((Mesh.decode (mkShell "MOD " 2) ⟨meshBytesC5, 0⟩ 0).map
      (fun r => r.1.vertGrp.length) = some 2) ∧
    ((Mesh.decode (mkShell "SCM " 3) ⟨meshBytesC5, 0⟩ 0).map
      (fun r => r.1.vertGrp.length) = some 3) ∧
    ((Mesh.decode (mkShell "MOD " 2) ⟨meshBytesC5, 0⟩ 0).map
      (fun r => (r.1.boneIndiciesOffs, r.1.weightsOffs, r.1.uknOffs)) =
      some (some 20, some 21, none)) ∧
    ((Mesh.decode (mkShell "SCM " 3) ⟨meshBytesC5, 0⟩ 0).map
      (fun r => (r.1.boneIndiciesOffs, r.1.weightsOffs, r.1.uknOffs)) =
      some (none, none, some 33)) := by
  refine ⟨?_, by decide, rfl, rfl, rfl, rfl⟩
  intro g g2 s i hbc hid
  exact Mesh.decode_ctx g g2 s i hbc hid

/-- Witness for C9: two ambient models agreeing on bone count and on the
baked-tag test give identical mesh decodes even though their tags
differ. -/
theorem meshDecodeGlobalDependence_witness :
    Mesh.decode (mkShell "MOD " 2) ⟨meshBytesC5, 0⟩ 0 =
      Mesh.decode (mkShell "ABC " 2) ⟨meshBytesC5, 0⟩ 0 :=
  meshDecodeGlobalDependence.1 _ _ _ _ rfl (by decide)

/-- C10: the skeleton's separate `parents` list is initialized to -1 for
every bone and never modified afterwards — after any successful decode it
is exactly boneCount copies of -1. -/
theorem skeletonParentsListConstant {s s1 : BStream} {bc : Int} {sk : Skeleton}
    (h : Skeleton.decode s bc = some (sk, s1)) :
    sk.parents = List.replicate bc.toNat (-1) :=
  (Skeleton.decodeSkeleton_inv h).2.2.2.2.1

/-- Witness for C10 on a one-bone skeleton whose hierarchy assigns a
parent: `parents` still reads [-1]. -/
theorem skeletonParentsListConstant_witness :
    ∃ sk s1, Skeleton.decode ⟨skelBytesC10, 0⟩ 1 = some (sk, s1) ∧
      sk.parents = [-1] := by
  obtain ⟨sk, s1, hdec⟩ :
      ∃ sk s1, Skeleton.decode ⟨skelBytesC10, 0⟩ 1 = some (sk, s1) := ⟨_, _, rfl⟩
  exact ⟨sk, s1, hdec, by simpa using skeletonParentsListConstant hdec⟩

end DMC3
